import Mathlib

/-!
Verification of the timestamp-based chat/transcript merge utility
(`merge_transcripts.py`): a shallow embedding of its timestamp parsers,
speaker resolver, alignment walk and renderer, together with theorems
about the properties the design document states.

Modelling conventions:
* Python `datetime` values are records of numeric fields (`DT`); the
  validation performed by `datetime.strptime` / the `datetime`
  constructor is the predicate `validDT`.
* `re` patterns are compiled by hand into character-list matchers with
  the same leftmost/greedy semantics on the inputs in scope
  (ASCII digits and word characters, newline-free filenames).
* Exceptions are `Except`: a raised `ValueError` / `OSError` is an
  `Except.error`, and the output file is written iff no exception
  occurs (the write is the last statement of the Python function).
* A transcript file whose `open` raises is a `TFile` with
  `content = none`.
-/

deriving instance DecidableEq for Except

namespace MergeSpec

/-- Python `datetime` modelled as plain numeric fields. -/
structure DT where
  year : Nat
  month : Nat
  day : Nat
  hour : Nat
  minute : Nat
  second : Nat
deriving DecidableEq, Repr

/-- Seconds since midnight of the time-of-day part. -/
def todSec (t : DT) : Nat := t.hour * 3600 + t.minute * 60 + t.second

/-- Injective encoding of a valid datetime; its `Nat` order agrees with
Python `datetime` comparison (lexicographic on the fields). -/
def dtKey (t : DT) : Nat :=
  ((((t.year * 13 + t.month) * 32 + t.day) * 24 + t.hour) * 60 + t.minute) * 60 + t.second

/-- Gregorian leap year, as `calendar.isleap` / `datetime` use it. -/
def isLeap (y : Nat) : Bool := y % 4 == 0 && (y % 100 != 0 || y % 400 == 0)

def daysInMonth (y mo : Nat) : Nat :=
  if mo == 2 then (if isLeap y then 29 else 28)
  else if mo == 4 || mo == 6 || mo == 9 || mo == 11 then 30
  else 31

/-- The field ranges accepted by `datetime.strptime("...","%Y-%m-%d %H:%M:%S")`:
out-of-range fields make it raise `ValueError` (year 0 is below
`datetime.MINYEAR`; four digits keep the year below `MAXYEAR`). -/
def validDT (y mo d h mi s : Nat) : Bool :=
  1 ≤ y && 1 ≤ mo && mo ≤ 12 && 1 ≤ d && d ≤ daysInMonth y mo &&
    h ≤ 23 && mi ≤ 59 && s ≤ 59

def digitVal (c : Char) : Nat := c.toNat - 48

/-- Match `\d\d` at the head, returning its value and the rest. -/
def d2 : List Char → Option (Nat × List Char)
  | a :: b :: rest =>
    if a.isDigit && b.isDigit then some (digitVal a * 10 + digitVal b, rest) else none
  | _ => none

/-- Match `\d\d\d\d` at the head. -/
def d4 : List Char → Option (Nat × List Char)
  | a :: b :: c :: d :: rest =>
    if a.isDigit && b.isDigit && c.isDigit && d.isDigit then
      some (((digitVal a * 10 + digitVal b) * 10 + digitVal c) * 10 + digitVal d, rest)
    else none
  | _ => none

/-- Match one literal character at the head. -/
def lit (ch : Char) : List Char → Option (List Char)
  | c :: rest => if c = ch then some rest else none
  | [] => none

/-- The pattern `(\d{4}-\d{2}-\d{2})[ _-](\d{2})-(\d{2})(?:-(\d{2}))?`
anchored at the head of the list; the optional seconds group is greedy,
a missing group defaults to `00` (source line 41). -/
def matchTsAt (cs : List Char) : Option (Nat × Nat × Nat × Nat × Nat × Nat) := do
  let (y, cs) ← d4 cs
  let cs ← lit '-' cs
  let (mo, cs) ← d2 cs
  let cs ← lit '-' cs
  let (dd, cs) ← d2 cs
  match cs with
  | sep :: cs =>
    if sep = ' ' || sep = '_' || sep = '-' then do
      let (h, cs) ← d2 cs
      let cs ← lit '-' cs
      let (mi, cs) ← d2 cs
      match (do d2 (← lit '-' cs) : Option (Nat × List Char)) with
      | some (s, _) => some (y, mo, dd, h, mi, s)
      | none => some (y, mo, dd, h, mi, 0)
    else none
  | [] => none

/-- `re.search`: try the pattern at every position, leftmost match wins. -/
def searchTs : List Char → Option (Nat × Nat × Nat × Nat × Nat × Nat)
  | [] => none
  | c :: cs =>
    match matchTsAt (c :: cs) with
    | some r => some r
    | none => searchTs cs

/-- `parse_transcript_timestamp` (source lines 30-45): leftmost regex
match, then `strptime` validation; any `ValueError` is caught and
yields `None`. -/
def parse_transcript_timestamp (filename : String) : Option DT :=
  match searchTs filename.data with
  | none => none
  | some (y, mo, d, h, mi, s) =>
    if validDT y mo d h mi s then some ⟨y, mo, d, h, mi, s⟩ else none

/-- `re.match(r"\[(\d{1,2}:\d{2})\]", line)`: a leading bracketed
time token, hour one or two digits (greedy), minute exactly two. -/
def chatLineMatch (cs : List Char) : Option (Nat × Nat) :=
  match cs with
  | '[' :: a :: rest =>
    if a.isDigit then
      match rest with
      | ':' :: m1 :: m2 :: ']' :: _ =>
        if m1.isDigit && m2.isDigit then some (digitVal a, digitVal m1 * 10 + digitVal m2)
        else none
      | b :: ':' :: m1 :: m2 :: ']' :: _ =>
        if b.isDigit && m1.isDigit && m2.isDigit then
          some (digitVal a * 10 + digitVal b, digitVal m1 * 10 + digitVal m2)
        else none
      | _ => none
    else none
  | _ => none

/-- `parse_chat_line_time` (source lines 66-71), value in minutes of
day.  `datetime.strptime(group, "%H:%M")` is NOT wrapped in
`try/except`: a matching token whose fields are not a valid time
raises `ValueError`, modelled as `Except.error ()`. -/
def parse_chat_line_time (line : String) : Except Unit (Option Nat) :=
  match chatLineMatch line.data with
  | none => Except.ok none
  | some (h, mi) =>
    if h ≤ 23 && mi ≤ 59 then Except.ok (some (60 * h + mi)) else Except.error ()

/-- ASCII model of `str.lower()` (character-wise, avoiding
byte-position recursion). -/
def toLowerPy (s : String) : String := String.mk (s.data.map Char.toLower)

/-- Python substring test `needle in hay` on character lists. -/
def strContains (hay needle : List Char) : Bool :=
  match hay with
  | [] => needle.isEmpty
  | _ :: t => needle.isPrefixOf hay || strContains t needle

/-- ASCII model of the regex class `\w`. -/
def wordChar (c : Char) : Bool := c.isAlphanum || c = '_'

/-- The `for key, val in mapping.items()` loop of `infer_speaker`
(source lines 51-53): first key whose lowercase form occurs in the
lowercase filename wins; `mapping` is listed in insertion order. -/
def inferLoop (lowerName : String) : List (String × String) → Option String
  | [] => none
  | (k, v) :: rest =>
    if strContains lowerName.data (toLowerPy k).data then some v
    else inferLoop lowerName rest

/-- Greedy `(.+)\.txt` at the head: the longest nonempty newline-free
prefix that is immediately followed by the literal `.txt`. -/
def greedyGroup : List Char → Option (List Char)
  | [] => none
  | c :: rest =>
    if c = '\n' then none
    else
      match greedyGroup rest with
      | some g => some (c :: g)
      | none => if ['.', 't', 'x', 't'].isPrefixOf rest then some [c] else none

/-- The pattern `\d{4}-\d{2}-\d{2}_[\d-]+_(.+)\.txt` anchored at the
head ('_' is not in `[\d-]`, so the `+` run is forced maximal). -/
def p1At (cs : List Char) : Option String := do
  let (_, cs) ← d4 cs
  let cs ← lit '-' cs
  let (_, cs) ← d2 cs
  let cs ← lit '-' cs
  let (_, cs) ← d2 cs
  let cs ← lit '_' cs
  let run := cs.takeWhile (fun c => c.isDigit || c = '-')
  if run.isEmpty then none
  else do
    let cs := cs.dropWhile (fun c => c.isDigit || c = '-')
    let cs ← lit '_' cs
    let g ← greedyGroup cs
    some (String.mk g)

def p1Search : List Char → Option String
  | [] => none
  | c :: rest =>
    match p1At (c :: rest) with
    | some g => some g
    | none => p1Search rest

/-- `re.search(r"\d{4}-\d{2}-\d{2}_[\d-]+_(.+)\.txt", filename)`
(source line 55). -/
def inferName1 (filename : String) : Option String := p1Search filename.data

/-- `_(\w+)\.txt$` with the match point fixed at a given `_`: the whole
remainder must be a nonempty word-character run followed by the final
literal `.txt`. -/
def p2At (rest : List Char) : Option String :=
  let n := rest.length
  if 5 ≤ n then
    let w := rest.take (n - 4)
    if w.all wordChar && rest.drop (n - 4) = ['.', 't', 'x', 't'] then
      some (String.mk w)
    else none
  else none

def p2Search : List Char → Option String
  | [] => none
  | c :: rest =>
    match (if c = '_' then p2At rest else none) with
    | some g => some g
    | none => p2Search rest

/-- `re.search(r"_(\w+)\.txt$", filename)` (source line 59). -/
def inferName2 (filename : String) : Option String := p2Search filename.data

/-- `infer_speaker` (source lines 48-63). -/
def infer_speaker (filename : String) (mapping : List (String × String)) : String :=
  match inferLoop (toLowerPy filename) mapping with
  | some v => v
  | none =>
    match inferName1 filename with
    | some g => g
    | none =>
      match inferName2 filename with
      | some g => g
      | none => "Unbekannt"

/-- Characters on which `str.splitlines` breaks (ASCII model; the
`\r\n` pair counts as a single break and is handled separately). -/
def lineBreakChar (c : Char) : Bool :=
  c = '\n' || c = '\r' || c = '\x0b' || c = '\x0c'

/-- Worker for `splitlinesPy`: accumulates the current line reversed; a
terminator at the very end does not open an empty final line. -/
def slGo : List Char → List Char → List String
  | [], acc => [String.mk acc.reverse]
  | '\r' :: '\n' :: rest, acc =>
    String.mk acc.reverse :: (match rest with | [] => [] | _ :: _ => slGo rest [])
  | c :: rest, acc =>
    if lineBreakChar c then
      String.mk acc.reverse :: (match rest with | [] => [] | _ :: _ => slGo rest [])
    else slGo rest (c :: acc)

/-- Python `str.splitlines()`:  `""` gives `[]`, a trailing terminator
adds no empty line. -/
def splitlinesPy (s : String) : List String :=
  match s.data with
  | [] => []
  | c :: cs => slGo (c :: cs) []

/-- Whitespace stripped by `str.strip()` (ASCII model). -/
def pySpace (c : Char) : Bool :=
  c = ' ' || c = '\t' || c = '\n' || c = '\r' || c = '\x0b' || c = '\x0c'

/-- Python `str.strip()`. -/
def stripPy (s : String) : String :=
  String.mk (((s.data.dropWhile pySpace).reverse.dropWhile pySpace).reverse)

/-- Source lines 121-123 / 134-136: `text = tf.read().strip()`, and the
body lines are `text.splitlines()` when `text` is nonempty. -/
def bodyLines (content : String) : List String :=
  let text := stripPy content
  if text = "" then [] else splitlinesPy text

/-- Two-digit zero-padded field of `strftime("%H:%M")`. -/
def pad2 (n : Nat) : String := if n < 10 then "0" ++ toString n else toString n

/-- One file of the transcript directory.  `content = none` models a
file whose `open()` raises at read time (source lines 120 / 133 have no
`try/except`). -/
structure TFile where
  name : String
  content : Option String
deriving DecidableEq, Repr

/-- An entry of the `transcripts` list built on source lines 95-99. -/
structure Transcript where
  file : TFile
  timestamp : DT
deriving DecidableEq, Repr

/-- The filter of `transcript_dir.glob("*.txt")`: the glob pattern
`*.txt` keeps exactly the entries whose name ends in `.txt` (pathlib
matching is case-sensitive on Linux and also admits dotfiles). -/
def endsWithTxt (s : String) : Bool := ['.', 't', 'x', 't'].isSuffixOf s.data

/-- Sort order of `sorted(transcript_dir.glob("*.txt"))`: path order,
i.e. filename order inside one directory (code-point lexicographic in
Python and in Lean alike). -/
def nameRel (a b : TFile) : Prop := a.name ≤ b.name

/-- Sort order of `transcripts.sort(key=lambda x: x["timestamp"])`:
Python compares `datetime` values lexicographically on their fields,
which on valid datetimes coincides with the order of `dtKey`. -/
def tsRel (a b : Transcript) : Prop := dtKey a.timestamp ≤ dtKey b.timestamp

instance : DecidableRel nameRel := fun a b => inferInstanceAs (Decidable (a.name ≤ b.name))

instance : DecidableRel tsRel :=
  fun a b => inferInstanceAs (Decidable (dtKey a.timestamp ≤ dtKey b.timestamp))

instance : IsTotal Transcript tsRel := ⟨fun _ _ => Nat.le_total _ _⟩

instance : IsTrans Transcript tsRel := ⟨fun _ _ _ => Nat.le_trans⟩

/-- Source lines 95-101: glob `*.txt` (sorted by name), keep the files
with a parseable timestamp, then stable-sort by timestamp.  Files whose
name yields no timestamp are dropped here (line 98 `if ts:`).  Python's
`sorted`/`list.sort` is a stable sort; `List.insertionSort` by the same
key is also stable, hence produces the identical list. -/
def prepare (files : List TFile) : List Transcript :=
  let globbed := List.insertionSort nameRel (files.filter (fun f => endsWithTxt f.name))
  let parsed := globbed.filterMap (fun f =>
    match parse_transcript_timestamp f.name with
    | some ts => some (Transcript.mk f ts)
    | none => none)
  List.insertionSort tsRel parsed

/-- Source lines 116-117: project the transcript timestamp onto the
chat line's date (both end up on the same date, so the difference in
seconds is the difference of the times of day) and compare with the
60-second tolerance, boundary inclusive. -/
def within60 (ts : DT) (lineTod : Nat) : Bool :=
  decide (((todSec ts : Int) - 60 * (lineTod : Int)).natAbs ≤ 60)

/-- An exception aborting the merge before the output file is written. -/
inductive MergeErr where
  /-- `ValueError` from `datetime.strptime` on a chat line (line 71). -/
  | chatTimeValueError (line : String)
  /-- `OSError` opening a transcript file (line 120 or 133). -/
  | unreadableTranscript (name : String)
deriving DecidableEq, Repr

/-- One element of the merged document: a verbatim chat line, or an
inserted transcript block (header line plus body lines). -/
inductive MergeEvent where
  | chat (line : String)
  | block (header : String) (body : List String)
deriving DecidableEq, Repr

def MergeEvent.isBlock : MergeEvent → Bool
  | .block _ _ => true
  | .chat _ => false

def MergeEvent.chatLine? : MergeEvent → Option String
  | .chat l => some l
  | .block _ _ => none

/-- The lines an event contributes to `result_lines`. -/
def renderEvent : MergeEvent → List String
  | .chat l => [l]
  | .block h b => h :: b

/-- Header of an inserted transcript (source lines 118-119 and 131-132;
both format the transcript's own hour and minute, since the projection
on line 116 only changes the date fields). -/
def headerLine (mapping : List (String × String)) (t : Transcript) : String :=
  "[Sprecher: " ++ infer_speaker t.file.name mapping ++ " | Audio: " ++
    pad2 t.timestamp.hour ++ ":" ++ pad2 t.timestamp.minute ++ "]"

/-- Body of an inserted transcript; only reached with readable content. -/
def bodyOf (t : Transcript) : List String :=
  match t.file.content with
  | some c => bodyLines c
  | none => []

/-- The block event one transcript contributes. -/
def mkBlock (mapping : List (String × String)) (t : Transcript) : MergeEvent :=
  MergeEvent.block (headerLine mapping t) (bodyOf t)

/-- The `while idx < len(transcripts)` loop (source lines 113-126) run
for one chat line, acting on the not-yet-consumed suffix of the sorted
transcript list: consume while within tolerance, stop at the first
transcript outside it. -/
def consume (mapping : List (String × String)) (tod : Nat) :
    List Transcript → Except MergeErr (List MergeEvent × List Transcript)
  | [] => Except.ok ([], [])
  | t :: rest =>
    if within60 t.timestamp tod then
      match t.file.content with
      | none => Except.error (MergeErr.unreadableTranscript t.file.name)
      | some c =>
        match consume mapping tod rest with
        | Except.error e => Except.error e
        | Except.ok (evs, rem) =>
          Except.ok (MergeEvent.block (headerLine mapping t) (bodyLines c) :: evs, rem)
    else Except.ok ([], t :: rest)

/-- The `for line in chat_lines` walk (source lines 109-126): copy the
line, and when it carries a time run `consume`.  A `ValueError` from
`parse_chat_line_time` propagates. -/
def walk (mapping : List (String × String)) :
    List String → List Transcript → Except MergeErr (List MergeEvent × List Transcript)
  | [], ts => Except.ok ([], ts)
  | line :: more, ts =>
    match parse_chat_line_time line with
    | Except.error _ => Except.error (MergeErr.chatTimeValueError line)
    | Except.ok none =>
      match walk mapping more ts with
      | Except.error e => Except.error e
      | Except.ok (evs, rem) => Except.ok (MergeEvent.chat line :: evs, rem)
    | Except.ok (some tod) =>
      match consume mapping tod ts with
      | Except.error e => Except.error e
      | Except.ok (blocks, ts2) =>
        match walk mapping more ts2 with
        | Except.error e => Except.error e
        | Except.ok (evs, rem) => Except.ok (MergeEvent.chat line :: blocks ++ evs, rem)

/-- The append loop for leftover transcripts (source lines 128-136). -/
def tailBlocks (mapping : List (String × String)) :
    List Transcript → Except MergeErr (List MergeEvent)
  | [] => Except.ok []
  | t :: rest =>
    match t.file.content with
    | none => Except.error (MergeErr.unreadableTranscript t.file.name)
    | some c =>
      match tailBlocks mapping rest with
      | Except.error e => Except.error e
      | Except.ok evs => Except.ok (MergeEvent.block (headerLine mapping t) (bodyLines c) :: evs)

/-- `merge_transcripts` viewed at the granularity of events: prepare the
transcript list, walk the chat lines, append the leftovers. -/
def merge_transcripts_events (chatContent : String) (files : List TFile)
    (mapping : List (String × String)) : Except MergeErr (List MergeEvent) :=
  match walk mapping (splitlinesPy chatContent) (prepare files) with
  | Except.error e => Except.error e
  | Except.ok (evs, rem) =>
    match tailBlocks mapping rem with
    | Except.error e => Except.error e
    | Except.ok tevs => Except.ok (evs ++ tevs)

/-- `merge_transcripts` (source lines 74-139) as a function from the
chat file content, the transcript directory listing and the speaker
mapping to the text written to the output file — or the exception that
aborts the run before the output file is opened (the write on lines
138-139 is the final statement). -/
def merge_transcripts (chatContent : String) (files : List TFile)
    (mapping : List (String × String)) : Except MergeErr String :=
  match merge_transcripts_events chatContent files mapping with
  | Except.error e => Except.error e
  | Except.ok evs => Except.ok (String.intercalate "\n" ((evs.map renderEvent).flatten))

/-- Observable outcome of one CLI invocation (source lines 142-152):
the process exit status and the content written to the output path
(`none` when the output file was never opened). -/
structure RunOutcome where
  exitZero : Bool
  written : Option String
deriving DecidableEq, Repr

/-- One run of the tool.  `chatFile = none` models an unopenable chat
file (line 103 raises before the output is opened); `dir = none` models
a transcript directory that cannot be opened — `Path.glob` on a missing
directory raises nothing and yields no entries, so the run proceeds
with an empty transcript list. -/
def run_merge (chatFile : Option String) (dir : Option (List TFile))
    (mapping : List (String × String)) : RunOutcome :=
  let files := dir.getD []
  match chatFile with
  | none => RunOutcome.mk false none
  | some c =>
    match merge_transcripts c files mapping with
    | Except.error _ => RunOutcome.mk false none
    | Except.ok out => RunOutcome.mk true (some out)

/-! ### Structural lemmas about the alignment walk -/

/-- The tolerance test driving the `while` loop for a chat line at
`tod` minutes of day. -/
def tolOK (tod : Nat) (t : Transcript) : Bool := within60 t.timestamp tod

/-! Concrete fixtures used by the witness theorems. -/

/-- The test of the mapping loop in `infer_speaker`, as a predicate on
one mapping entry: the lowercased key occurs in the lowercased
filename. -/
def keyHit (f : String) (kv : String × String) : Bool :=
  strContains (toLowerPy f).data (toLowerPy kv.1).data

def exMapping : List (String × String) := [("max", "Maximilian")]

def exIn : Transcript :=
  Transcript.mk (TFile.mk "2024-06-28_14-05-30_Max.txt" (some "Hi zurueck"))
    (DT.mk 2024 6 28 14 5 30)

def exT60 : Transcript :=
  Transcript.mk (TFile.mk "2024-06-28_14-06-00_A.txt" (some "x")) (DT.mk 2024 6 28 14 6 0)

def exFar : Transcript :=
  Transcript.mk (TFile.mk "2024-06-28_14-30-00_B.txt" (some "y")) (DT.mk 2024 6 28 14 30 0)

def exFarFile : TFile := TFile.mk "2024-06-28_14-30-00_B.txt" (some "y")

def exMaxFile : TFile := TFile.mk "2024-06-28_14-05-00_Max.txt" (some "Hi")

def exBadFile : TFile := TFile.mk "2024-06-28_14-05-00_Max.txt" none

/-- A successful run of the `while` loop consumes exactly the maximal
within-tolerance prefix of the remaining transcripts, emits one block
per consumed transcript in list order, and leaves the rest; every
consumed transcript was readable. -/
theorem consume_ok (m : List (String × String)) (tod : Nat) :
    ∀ ts evs rem, consume m tod ts = Except.ok (evs, rem) →
      evs = (ts.takeWhile (tolOK tod)).map (mkBlock m) ∧
      rem = ts.dropWhile (tolOK tod) ∧
      ∀ t ∈ ts.takeWhile (tolOK tod), t.file.content.isSome := by
  intro ts
  induction ts with
  | nil =>
    intro evs rem h
    simp only [consume, Except.ok.injEq, Prod.mk.injEq] at h
    obtain ⟨rfl, rfl⟩ := h
    simp
  | cons t rest ih =>
    intro evs rem h
    by_cases hw : within60 t.timestamp tod = true
    · simp only [consume, hw, if_true] at h
      cases hc : t.file.content with
      | none => rw [hc] at h; exact Except.noConfusion h
      | some c =>
        rw [hc] at h
        cases hrec : consume m tod rest with
        | error e => rw [hrec] at h; exact Except.noConfusion h
        | ok pr =>
          obtain ⟨evs0, rem0⟩ := pr
          rw [hrec] at h
          simp only [Except.ok.injEq, Prod.mk.injEq] at h
          obtain ⟨rfl, rfl⟩ := h
          obtain ⟨he, hr, hs⟩ := ih evs0 rem0 hrec
          have htw : (t :: rest).takeWhile (tolOK tod) = t :: rest.takeWhile (tolOK tod) :=
            List.takeWhile_cons_of_pos (by simpa [tolOK] using hw)
          have hdw : (t :: rest).dropWhile (tolOK tod) = rest.dropWhile (tolOK tod) :=
            List.dropWhile_cons_of_pos (by simpa [tolOK] using hw)
          refine ⟨?_, ?_, ?_⟩
          · rw [htw, List.map_cons, ← he, mkBlock, bodyOf, hc]
          · rw [hdw, hr]
          · intro x hx
            rw [htw] at hx
            rcases List.mem_cons.mp hx with rfl | hx2
            · simp [hc]
            · exact hs x hx2
    · simp only [consume, hw, if_false, Except.ok.injEq, Prod.mk.injEq] at h
      obtain ⟨rfl, rfl⟩ := h
      have htw : (t :: rest).takeWhile (tolOK tod) = [] :=
        List.takeWhile_cons_of_neg (by simpa [tolOK] using hw)
      have hdw : (t :: rest).dropWhile (tolOK tod) = t :: rest :=
        List.dropWhile_cons_of_neg (by simpa [tolOK] using hw)
      simp [htw, hdw]

/-- Helper: a list of transcript blocks is untouched by the block
filter. -/
theorem filter_isBlock_map_mkBlock (m : List (String × String)) (l : List Transcript) :
    (l.map (mkBlock m)).filter MergeEvent.isBlock = l.map (mkBlock m) := by
  refine List.filter_eq_self.mpr ?_
  intro e he
  obtain ⟨t, _, rfl⟩ := List.mem_map.mp he
  rfl

/-- Helper: a list of transcript blocks contributes no chat lines. -/
theorem filterMap_chatLine_map_mkBlock (m : List (String × String)) (l : List Transcript) :
    (l.map (mkBlock m)).filterMap MergeEvent.chatLine? = [] := by
  refine List.filterMap_eq_nil_iff.mpr ?_
  intro e he
  obtain ⟨t, _, rfl⟩ := List.mem_map.mp he
  rfl

/-- A successful walk over the chat lines splits the transcript list
into a consumed prefix and the leftover suffix: the block events are
exactly one block per consumed transcript in order, the chat events are
exactly the input lines in order, and every consumed transcript was
readable. -/
theorem walk_ok (m : List (String × String)) :
    ∀ lines ts evs rem, walk m lines ts = Except.ok (evs, rem) →
      ∃ consumed,
        ts = consumed ++ rem ∧
        evs.filter MergeEvent.isBlock = consumed.map (mkBlock m) ∧
        evs.filterMap MergeEvent.chatLine? = lines ∧
        ∀ t ∈ consumed, t.file.content.isSome := by
  intro lines
  induction lines with
  | nil =>
    intro ts evs rem h
    simp only [walk, Except.ok.injEq, Prod.mk.injEq] at h
    obtain ⟨rfl, rfl⟩ := h
    exact ⟨[], by simp⟩
  | cons line more ih =>
    intro ts evs rem h
    cases hp : parse_chat_line_time line with
    | error e =>
      simp only [walk, hp] at h
      exact Except.noConfusion h
    | ok otod =>
      cases otod with
      | none =>
        cases hrec : walk m more ts with
        | error e =>
          simp only [walk, hp, hrec] at h
          exact Except.noConfusion h
        | ok pr =>
          obtain ⟨evs0, rem0⟩ := pr
          simp only [walk, hp, hrec, Except.ok.injEq, Prod.mk.injEq] at h
          obtain ⟨rfl, rfl⟩ := h
          obtain ⟨consumed, hts, hblk, hchat, hsome⟩ := ih ts evs0 rem0 hrec
          refine ⟨consumed, hts, ?_, ?_, hsome⟩
          · simpa [List.filter_cons, MergeEvent.isBlock] using hblk
          · simpa [List.filterMap_cons, MergeEvent.chatLine?] using hchat
      | some tod =>
        cases hcon : consume m tod ts with
        | error e =>
          simp only [walk, hp, hcon] at h
          exact Except.noConfusion h
        | ok pr =>
          obtain ⟨blocks, ts2⟩ := pr
          cases hrec : walk m more ts2 with
          | error e =>
            simp only [walk, hp, hcon, hrec] at h
            exact Except.noConfusion h
          | ok pr2 =>
            obtain ⟨evs0, rem0⟩ := pr2
            simp only [walk, hp, hcon, hrec, Except.ok.injEq, Prod.mk.injEq] at h
            obtain ⟨rfl, rfl⟩ := h
            obtain ⟨hbl, hts2, hsome1⟩ := consume_ok m tod ts blocks ts2 hcon
            obtain ⟨consumed0, hts0, hblk0, hchat0, hsome0⟩ := ih ts2 evs0 rem0 hrec
            refine ⟨ts.takeWhile (tolOK tod) ++ consumed0, ?_, ?_, ?_, ?_⟩
            · rw [List.append_assoc, ← hts0, hts2,
                List.takeWhile_append_dropWhile (tolOK tod) ts]
            · rw [List.map_append, ← hblk0, ← hbl]
              simp [List.filter_cons, List.filter_append, MergeEvent.isBlock, hbl,
                filter_isBlock_map_mkBlock]
            · simp only [List.filterMap_cons, List.filterMap_append, hbl,
                filterMap_chatLine_map_mkBlock, hchat0, MergeEvent.chatLine?]
              rfl
            · intro t ht
              rcases List.mem_append.mp ht with h1 | h2
              · exact hsome1 t h1
              · exact hsome0 t h2

/-- A successful leftover pass emits one block per leftover transcript,
in list order; every leftover transcript was readable. -/
theorem tailBlocks_ok (m : List (String × String)) :
    ∀ rem tevs, tailBlocks m rem = Except.ok tevs →
      tevs = rem.map (mkBlock m) ∧ ∀ t ∈ rem, t.file.content.isSome := by
  intro rem
  induction rem with
  | nil =>
    intro tevs h
    simp only [tailBlocks, Except.ok.injEq] at h
    simp [← h]
  | cons t rest ih =>
    intro tevs h
    simp only [tailBlocks] at h
    cases hc : t.file.content with
    | none => rw [hc] at h; exact Except.noConfusion h
    | some c =>
      rw [hc] at h
      cases hrec : tailBlocks m rest with
      | error e => rw [hrec] at h; exact Except.noConfusion h
      | ok evs0 =>
        rw [hrec] at h
        simp only [Except.ok.injEq] at h
        obtain ⟨he, hsome⟩ := ih evs0 hrec
        refine ⟨?_, ?_⟩
        · rw [← h, he, List.map_cons, mkBlock, bodyOf, hc]
        · intro x hx
          rcases List.mem_cons.mp hx with rfl | hx2
          · simp [hc]
          · exact hsome x hx2

/-- Decomposition of a successful merge: the events are the walk's
events followed by one block per leftover transcript; the prepared
transcript list splits into consumed part and leftovers; the chat
events are exactly the input lines; every prepared transcript was
readable. -/
theorem merge_events_ok (c : String) (f : List TFile) (m : List (String × String))
    (evs : List MergeEvent) (h : merge_transcripts_events c f m = Except.ok evs) :
    ∃ evs1 rem consumed,
      walk m (splitlinesPy c) (prepare f) = Except.ok (evs1, rem) ∧
      prepare f = consumed ++ rem ∧
      evs = evs1 ++ rem.map (mkBlock m) ∧
      evs1.filter MergeEvent.isBlock = consumed.map (mkBlock m) ∧
      evs1.filterMap MergeEvent.chatLine? = splitlinesPy c ∧
      ∀ t ∈ prepare f, t.file.content.isSome := by
  cases hw : walk m (splitlinesPy c) (prepare f) with
  | error e =>
    simp only [merge_transcripts_events, hw] at h
    exact Except.noConfusion h
  | ok pr =>
    obtain ⟨evs1, rem⟩ := pr
    cases ht : tailBlocks m rem with
    | error e =>
      simp only [merge_transcripts_events, hw, ht] at h
      exact Except.noConfusion h
    | ok tevs =>
      simp only [merge_transcripts_events, hw, ht, Except.ok.injEq] at h
      obtain ⟨consumed, hsplit, hblk, hchat, hsome1⟩ := walk_ok m (splitlinesPy c)
        (prepare f) evs1 rem hw
      obtain ⟨htevs, hsome2⟩ := tailBlocks_ok m rem tevs ht
      refine ⟨evs1, rem, consumed, rfl, hsplit, ?_, hblk, hchat, ?_⟩
      · rw [← h, htevs]
      · intro t htmem
        rw [hsplit] at htmem
        rcases List.mem_append.mp htmem with h1 | h2
        · exact hsome1 t h1
        · exact hsome2 t h2

/-- Every prepared transcript has a parseable timestamp, namely the one
recorded in it. -/
theorem prepare_mem_parse (f : List TFile) (t : Transcript) (h : t ∈ prepare f) :
    parse_transcript_timestamp t.file.name = some t.timestamp := by
  simp only [prepare] at h
  rw [(List.perm_insertionSort tsRel _).mem_iff] at h
  rw [List.mem_filterMap] at h
  obtain ⟨f0, _, hf0⟩ := h
  cases hp : parse_transcript_timestamp f0.name with
  | none => rw [hp] at hf0; exact Option.noConfusion hf0
  | some ts =>
    rw [hp] at hf0
    cases hf0
    exact hp

/-- Sortedness of the prepared transcript list under the timestamp
order. -/
theorem prepare_sorted (f : List TFile) : (prepare f).Pairwise tsRel := by
  simpa [prepare] using List.sorted_insertionSort tsRel
    ((List.insertionSort nameRel (f.filter fun fl => endsWithTxt fl.name)).filterMap
      (fun fl => match parse_transcript_timestamp fl.name with
        | some ts => some (Transcript.mk fl ts)
        | none => none))

/-- Helper: the head of a `dropWhile` residue fails the predicate. -/
theorem dropWhile_head_false {α : Type} (p : α → Bool) (l : List α) (a : α) (l2 : List α)
    (h : l.dropWhile p = a :: l2) : p a = false := by
  have hh := List.head?_dropWhile_not p l
  rw [h] at hh
  simpa using hh

/-! ### C1 — every discovered transcript appears exactly once -/

/-- Claim C1, counterexample: a transcript file whose name yields no
parseable timestamp (`voice_note.txt`) is dropped on source line 98 and
its text appears zero times in the output, contradicting the claim that
it is "still included in the output ... never silently dropped". -/
theorem claim_C1_counterexample :
    merge_transcripts "Hallo" [TFile.mk "voice_note.txt" (some "GEHEIM")] []
      = Except.ok "Hallo" ∧
    merge_transcripts_events "Hallo" [TFile.mk "voice_note.txt" (some "GEHEIM")] []
      = Except.ok [MergeEvent.chat "Hallo"] := by
  constructor
  · decide
  · decide

/-- Claim C1 (amended): on a successful merge the block events of the
output are exactly one block per prepared transcript (those with a
parseable timestamp), in order — never zero, never duplicated; a file
whose name yields no parseable timestamp is excluded from the prepared
list entirely. -/
theorem claim_C1 (c : String) (f : List TFile) (m : List (String × String))
    (evs : List MergeEvent) (h : merge_transcripts_events c f m = Except.ok evs) :
    evs.filter MergeEvent.isBlock = (prepare f).map (mkBlock m) ∧
    ∀ fl ∈ f, parse_transcript_timestamp fl.name = none →
      ∀ t ∈ prepare f, t.file ≠ fl := by
  obtain ⟨evs1, rem, consumed, hw, hsplit, hevs, hblk, hchat, hsome⟩ :=
    merge_events_ok c f m evs h
  constructor
  · rw [hevs, List.filter_append, hblk, filter_isBlock_map_mkBlock, ← List.map_append,
      ← hsplit]
  · intro fl _ hnone t ht heq
    have hp := prepare_mem_parse f t ht
    rw [heq, hnone] at hp
    exact Option.noConfusion hp

/-- Witness for C1 at a concrete input: one parseable transcript, one
chat line without a time. -/
theorem claim_C1_witness :
    merge_transcripts_events "A" [exMaxFile] [] = Except.ok
      [MergeEvent.chat "A", MergeEvent.block "[Sprecher: Max | Audio: 14:05]" ["Hi"]] ∧
    (([MergeEvent.chat "A",
        MergeEvent.block "[Sprecher: Max | Audio: 14:05]" ["Hi"]].filter MergeEvent.isBlock
          = (prepare [exMaxFile]).map (mkBlock [])) ∧
      ∀ fl ∈ [exMaxFile], parse_transcript_timestamp fl.name = none →
        ∀ t ∈ prepare [exMaxFile], t.file ≠ fl) :=
  ⟨by decide, claim_C1 "A" [exMaxFile] []
    [MergeEvent.chat "A", MergeEvent.block "[Sprecher: Max | Audio: 14:05]" ["Hi"]]
    (by decide)⟩

/-! ### C5 — chat lines are preserved verbatim, in order -/

/-- Claim C5: on a successful merge the chat events of the output are
exactly the input chat lines, character for character and in order;
every other output event is an inserted transcript block. -/
theorem claim_C5 (c : String) (f : List TFile) (m : List (String × String))
    (evs : List MergeEvent) (h : merge_transcripts_events c f m = Except.ok evs) :
    evs.filterMap MergeEvent.chatLine? = splitlinesPy c ∧
    ∀ e ∈ evs, e.isBlock = true ∨ ∃ l, e = MergeEvent.chat l ∧ l ∈ splitlinesPy c := by
  obtain ⟨evs1, rem, consumed, hw, hsplit, hevs, hblk, hchat, hsome⟩ :=
    merge_events_ok c f m evs h
  have hlines : evs.filterMap MergeEvent.chatLine? = splitlinesPy c := by
    rw [hevs, List.filterMap_append, hchat, filterMap_chatLine_map_mkBlock,
      List.append_nil]
  refine ⟨hlines, ?_⟩
  intro e he
  cases e with
  | block hd bd => exact Or.inl rfl
  | chat l =>
    refine Or.inr ⟨l, rfl, ?_⟩
    rw [← hlines]
    exact List.mem_filterMap.mpr ⟨MergeEvent.chat l, he, rfl⟩

/-- Witness for C5 at a concrete input: one timed chat line, one plain
line, one inlined transcript. -/
theorem claim_C5_witness :
    merge_transcripts_events "[14:05] Hallo!\nOhne Zeit" [exMaxFile] [] = Except.ok
      [MergeEvent.chat "[14:05] Hallo!",
        MergeEvent.block "[Sprecher: Max | Audio: 14:05]" ["Hi"],
        MergeEvent.chat "Ohne Zeit"] ∧
    (([MergeEvent.chat "[14:05] Hallo!",
        MergeEvent.block "[Sprecher: Max | Audio: 14:05]" ["Hi"],
        MergeEvent.chat "Ohne Zeit"].filterMap MergeEvent.chatLine?
          = splitlinesPy "[14:05] Hallo!\nOhne Zeit") ∧
      ∀ e ∈ [MergeEvent.chat "[14:05] Hallo!",
        MergeEvent.block "[Sprecher: Max | Audio: 14:05]" ["Hi"],
        MergeEvent.chat "Ohne Zeit"], e.isBlock = true ∨
          ∃ l, e = MergeEvent.chat l ∧ l ∈ splitlinesPy "[14:05] Hallo!\nOhne Zeit") :=
  ⟨by decide, claim_C5 "[14:05] Hallo!\nOhne Zeit" [exMaxFile] []
    [MergeEvent.chat "[14:05] Hallo!",
      MergeEvent.block "[Sprecher: Max | Audio: 14:05]" ["Hi"],
      MergeEvent.chat "Ohne Zeit"] (by decide)⟩

/-! ### C7 — unreadable transcript files -/

/-- Claim C7, counterexample: an unreadable transcript file is NOT
skipped with a warning — the `open` on source line 120 is not guarded
by `try/except`, so the exception aborts the whole merge and nothing is
written. -/
theorem claim_C7_counterexample :
    merge_transcripts "[14:05] Hi" [exBadFile] []
      = Except.error (MergeErr.unreadableTranscript "2024-06-28_14-05-00_Max.txt") := by
  decide

/-- Claim C7 (amended): if any prepared transcript's file is unreadable
at render time, the merge does not continue — it aborts with the
exception and no output is produced. -/
theorem claim_C7 (c : String) (f : List TFile) (m : List (String × String))
    (t : Transcript) (hmem : t ∈ prepare f) (hnone : t.file.content = none) :
    ∃ e, merge_transcripts c f m = Except.error e := by
  cases h : merge_transcripts_events c f m with
  | error e =>
    refine ⟨e, ?_⟩
    simp [merge_transcripts, h]
  | ok evs =>
    obtain ⟨evs1, rem, consumed, hw, hsplit, hevs, hblk, hchat, hsome⟩ :=
      merge_events_ok c f m evs h
    have hs := hsome t hmem
    rw [hnone] at hs
    exact absurd hs (by simp)

/-- Witness for C7 at a concrete input: the only transcript file is
unreadable; the merge errors. -/
theorem claim_C7_witness :
    Transcript.mk exBadFile (DT.mk 2024 6 28 14 5 0) ∈ prepare [exBadFile] ∧
    exBadFile.content = none ∧
    ∃ e, merge_transcripts "[14:05] Hi" [exBadFile] [] = Except.error e :=
  ⟨by decide, rfl,
    claim_C7 "[14:05] Hi" [exBadFile] [] (Transcript.mk exBadFile (DT.mk 2024 6 28 14 5 0))
      (by decide) rfl⟩

/-! ### C2 — the cursor walk at one timed chat line -/

/-- Claim C2: at a chat line carrying a parsed time, a successful walk
emits the line and then one block per transcript in the maximal
within-tolerance prefix at the cursor (several transcripts may cluster
after one line, and if the list is sorted the cluster is in ascending
timestamp order); the first transcript outside the 60-second tolerance
is not consumed, and the walk continues with the next chat line at that
cursor position. -/
theorem claim_C2 (m : List (String × String)) (line : String) (more : List String)
    (ts : List Transcript) (tod : Nat) (evs : List MergeEvent) (rem : List Transcript)
    (hp : parse_chat_line_time line = Except.ok (some tod))
    (hw : walk m (line :: more) ts = Except.ok (evs, rem)) :
    (∃ evs2, evs = MergeEvent.chat line ::
        (ts.takeWhile (tolOK tod)).map (mkBlock m) ++ evs2 ∧
      walk m more (ts.dropWhile (tolOK tod)) = Except.ok (evs2, rem)) ∧
    (∀ t rest2, ts.dropWhile (tolOK tod) = t :: rest2 → within60 t.timestamp tod = false) ∧
    (ts.Pairwise tsRel → (ts.takeWhile (tolOK tod)).Pairwise tsRel) := by
  refine ⟨?_, ?_, ?_⟩
  · cases hcon : consume m tod ts with
    | error e =>
      simp only [walk, hp, hcon] at hw
      exact Except.noConfusion hw
    | ok pr =>
      obtain ⟨blocks, ts2⟩ := pr
      cases hrec : walk m more ts2 with
      | error e =>
        simp only [walk, hp, hcon, hrec] at hw
        exact Except.noConfusion hw
      | ok pr2 =>
        obtain ⟨evs0, rem0⟩ := pr2
        simp only [walk, hp, hcon, hrec, Except.ok.injEq, Prod.mk.injEq] at hw
        obtain ⟨rfl, rfl⟩ := hw
        obtain ⟨hbl, hts2, _⟩ := consume_ok m tod ts blocks ts2 hcon
        refine ⟨evs0, by rw [hbl], ?_⟩
        rw [← hts2]
        exact hrec
  · intro t rest2 hdw
    have := dropWhile_head_false (tolOK tod) ts t rest2 hdw
    simpa [tolOK] using this
  · intro hsorted
    exact hsorted.sublist (List.takeWhile_sublist (tolOK tod))

/-- Witness for C2 at a concrete input: one in-tolerance transcript is
consumed, the out-of-tolerance one is left for the tail. -/
theorem claim_C2_witness :
    parse_chat_line_time "[14:05] Hallo!" = Except.ok (some 845) ∧
    walk [] ["[14:05] Hallo!"] [exIn, exFar] = Except.ok
      ([MergeEvent.chat "[14:05] Hallo!",
        MergeEvent.block "[Sprecher: Max | Audio: 14:05]" ["Hi zurueck"]], [exFar]) ∧
    ((∃ evs2, [MergeEvent.chat "[14:05] Hallo!",
        MergeEvent.block "[Sprecher: Max | Audio: 14:05]" ["Hi zurueck"]]
          = MergeEvent.chat "[14:05] Hallo!" ::
            (([exIn, exFar].takeWhile (tolOK 845)).map (mkBlock [])) ++ evs2 ∧
        walk [] [] ([exIn, exFar].dropWhile (tolOK 845)) = Except.ok (evs2, [exFar])) ∧
      (∀ t rest2, [exIn, exFar].dropWhile (tolOK 845) = t :: rest2 →
        within60 t.timestamp 845 = false) ∧
      ([exIn, exFar].Pairwise tsRel → ([exIn, exFar].takeWhile (tolOK 845)).Pairwise tsRel)) :=
  ⟨by decide, by decide,
    claim_C2 [] "[14:05] Hallo!" [] [exIn, exFar] 845
      [MergeEvent.chat "[14:05] Hallo!",
        MergeEvent.block "[Sprecher: Max | Audio: 14:05]" ["Hi zurueck"]] [exFar]
      (by decide) (by decide)⟩

/-! ### C3 — the 60-second boundary is inclusive -/

/-- Claim C3: a transcript whose projected time differs from the chat
line's time by exactly 60 seconds is consumed by the loop (inserted
after that line); at 61 seconds the loop stops without consuming it. -/
theorem claim_C3 (m : List (String × String)) (tod : Nat) (t : Transcript)
    (rest : List Transcript) (evs : List MergeEvent) (rem : List Transcript) (c : String)
    (hc : t.file.content = some c)
    (hrest : consume m tod rest = Except.ok (evs, rem)) :
    (((todSec t.timestamp : Int) - 60 * (tod : Int)).natAbs = 60 →
      consume m tod (t :: rest)
        = Except.ok (MergeEvent.block (headerLine m t) (bodyLines c) :: evs, rem)) ∧
    (((todSec t.timestamp : Int) - 60 * (tod : Int)).natAbs = 61 →
      consume m tod (t :: rest) = Except.ok ([], t :: rest)) := by
  constructor
  · intro h60
    have hw : within60 t.timestamp tod = true := by
      simp [within60, h60]
    simp only [consume, hw, if_true, hc, hrest]
  · intro h61
    have hw : within60 t.timestamp tod = false := by
      simp [within60, h61]
    simp only [consume, hw, Bool.false_eq_true, if_false]

/-- Witness for C3 at concrete inputs: `exT60` is 14:06:00, exactly 60
seconds after a 14:05 chat line (tod 845). -/
theorem claim_C3_witness :
    exT60.file.content = some "x" ∧
    consume [] 845 [] = Except.ok ([], []) ∧
    consume [] 845 [exT60]
      = Except.ok ([MergeEvent.block (headerLine [] exT60) (bodyLines "x")], []) :=
  ⟨rfl, rfl, (claim_C3 [] 845 exT60 [] [] [] "x" rfl rfl).1 (by decide)⟩

/-! ### C6 — leftover transcripts are appended at the end, sorted -/

/-- Claim C6: on a successful merge the output is the walk's events
followed by one block per leftover transcript; the leftovers are a
suffix of the sorted transcript list, hence in ascending timestamp
order, and each contributes its own header line followed by its body —
no leftover is interleaved before or between chat lines. -/
theorem claim_C6 (c : String) (f : List TFile) (m : List (String × String))
    (evs : List MergeEvent) (h : merge_transcripts_events c f m = Except.ok evs) :
    ∃ evs1 rem, walk m (splitlinesPy c) (prepare f) = Except.ok (evs1, rem) ∧
      evs = evs1 ++ rem.map (mkBlock m) ∧
      (∃ consumed, prepare f = consumed ++ rem) ∧
      rem.Pairwise tsRel ∧
      ∀ t ∈ rem, mkBlock m t = MergeEvent.block (headerLine m t) (bodyOf t) := by
  obtain ⟨evs1, rem, consumed, hw, hsplit, hevs, hblk, hchat, hsome⟩ :=
    merge_events_ok c f m evs h
  refine ⟨evs1, rem, hw, hevs, ⟨consumed, hsplit⟩, ?_, fun t _ => rfl⟩
  have hs := prepare_sorted f
  rw [hsplit] at hs
  exact (List.pairwise_append.mp hs).2.1

/-- Witness for C6 at a concrete input: the far transcript is never in
tolerance and ends up as the sorted appended tail. -/
theorem claim_C6_witness :
    merge_transcripts_events "[14:05] Hallo!" [exFarFile] [] = Except.ok
      [MergeEvent.chat "[14:05] Hallo!",
        MergeEvent.block "[Sprecher: B | Audio: 14:30]" ["y"]] ∧
    (∃ evs1 rem,
      walk [] (splitlinesPy "[14:05] Hallo!") (prepare [exFarFile]) = Except.ok (evs1, rem) ∧
      [MergeEvent.chat "[14:05] Hallo!",
        MergeEvent.block "[Sprecher: B | Audio: 14:30]" ["y"]]
          = evs1 ++ rem.map (mkBlock []) ∧
      (∃ consumed, prepare [exFarFile] = consumed ++ rem) ∧
      rem.Pairwise tsRel ∧
      ∀ t ∈ rem, mkBlock [] t = MergeEvent.block (headerLine [] t) (bodyOf t)) :=
  ⟨by decide,
    claim_C6 "[14:05] Hallo!" [exFarFile] []
      [MergeEvent.chat "[14:05] Hallo!",
        MergeEvent.block "[Sprecher: B | Audio: 14:30]" ["y"]] (by decide)⟩

/-! ### C4 — totality of the two timestamp grammars -/

/-- Claim C4, counterexample: `parse_chat_line_time` does not catch the
`ValueError` of `datetime.strptime` — on a line whose bracketed token
matches the pattern but is not a valid time (hour 25) it raises instead
of returning None. -/
theorem claim_C4_counterexample :
    parse_chat_line_time "[25:30] Hallo" = Except.error () := by
  decide

/-- Claim C4 (amended): the transcript-filename parser is total — a
matching pattern whose fields are not a valid calendar date/time yields
None, never an exception (every successful parse carries valid fields).
The chat-line parser returns None when the line does not start with the
bracketed pattern, and succeeds on a matching valid time, but raises a
`ValueError` when the pattern matches and the fields are out of range. -/
theorem claim_C4 :
    (∀ name dt, parse_transcript_timestamp name = some dt →
      validDT dt.year dt.month dt.day dt.hour dt.minute dt.second = true) ∧
    parse_transcript_timestamp "2024-13-01_10-00-00.txt" = none ∧
    (∀ line, chatLineMatch line.data = none → parse_chat_line_time line = Except.ok none) ∧
    (∀ line h mi, chatLineMatch line.data = some (h, mi) → h ≤ 23 → mi ≤ 59 →
      parse_chat_line_time line = Except.ok (some (60 * h + mi))) ∧
    (∀ line h mi, chatLineMatch line.data = some (h, mi) → 24 ≤ h ∨ 60 ≤ mi →
      parse_chat_line_time line = Except.error ()) := by
  refine ⟨?_, by decide, ?_, ?_, ?_⟩
  · intro name dt hp
    cases hs : searchTs name.data with
    | none =>
      simp only [parse_transcript_timestamp, hs] at hp
      exact Option.noConfusion hp
    | some q =>
      obtain ⟨y, mo, d, hh, mi, s⟩ := q
      simp only [parse_transcript_timestamp, hs] at hp
      split at hp
      · rename_i hv
        cases hp
        exact hv
      · exact Option.noConfusion hp
  · intro line hm
    simp only [parse_chat_line_time, hm]
  · intro line hh mi hm h1 h2
    simp [parse_chat_line_time, hm, h1, h2]
  · intro line hh mi hm hor
    have h1 : ¬ (hh ≤ 23 ∧ mi ≤ 59) := by omega
    simp only [parse_chat_line_time, hm]
    rw [if_neg]
    simpa using h1

/-- Witness for C4: a successful filename parse carries valid fields. -/
theorem claim_C4_witness :
    parse_transcript_timestamp "2024-06-28_14-05-30_Max.txt" = some (DT.mk 2024 6 28 14 5 30) ∧
    validDT 2024 6 28 14 5 30 = true :=
  ⟨by decide,
    claim_C4.1 "2024-06-28_14-05-30_Max.txt" (DT.mk 2024 6 28 14 5 30) (by decide)⟩

/-! ### C8 — behaviour of the run on unopenable primary inputs -/

/-- Claim C8, counterexample: an unopenable transcript directory does
NOT abort the run — `Path.glob` on a missing directory silently yields
no entries, so the run writes the chat content and exits zero. -/
theorem claim_C8_counterexample :
    run_merge (some "Hallo") none [] = RunOutcome.mk true (some "Hallo") := by
  decide

/-- Claim C8 (amended): an unopenable chat file aborts with a non-zero
exit before the output file is opened; an unopenable transcript
directory does not abort — the run behaves exactly as with an empty
directory; with both inputs available, transcripts with malformed
(unparseable) names are skipped silently and the run exits zero. -/
theorem claim_C8 :
    (∀ dir m, run_merge none dir m = RunOutcome.mk false none) ∧
    (∀ c m, run_merge (some c) none m = run_merge (some c) (some []) m) ∧
    run_merge (some "Hallo") (some [TFile.mk "malformed.txt" (some "GEHEIM")]) []
      = RunOutcome.mk true (some "Hallo") := by
  refine ⟨fun dir m => rfl, fun c m => rfl, by decide⟩

/-! ### C9 — the speaker resolver's priority order -/

/-- Helper: the mapping loop of `infer_speaker` returns the value of
the first entry whose key hits, i.e. behaves as `find?` followed by the
second projection. -/
theorem inferLoop_eq_find (f : String) (m : List (String × String)) :
    inferLoop (toLowerPy f) m = (m.find? (keyHit f)).map Prod.snd := by
  induction m with
  | nil => rfl
  | cons kv rest ih =>
    obtain ⟨k, v⟩ := kv
    by_cases hk : keyHit f (k, v) = true
    · have hk2 : strContains (toLowerPy f).data (toLowerPy k).data = true := hk
      rw [List.find?_cons_of_pos _ hk]
      simp only [inferLoop]
      rw [if_pos hk2]
      rfl
    · have hk2 : ¬ strContains (toLowerPy f).data (toLowerPy k).data = true := hk
      rw [List.find?_cons_of_neg _ hk]
      simp only [inferLoop]
      rw [if_neg hk2]
      exact ih

/-- Claim C9: `infer_speaker` applies exactly the priority order — the
first mapping entry (insertion order) whose key occurs
case-insensitively in the filename wins; otherwise the
`<date>_<...>_<name>.txt` pattern; otherwise the looser `_<name>.txt`
pattern; otherwise the fixed sentinel for an unknown speaker. -/
theorem claim_C9 :
    (∀ f m kv, m.find? (keyHit f) = some kv → infer_speaker f m = kv.2) ∧
    (∀ f m g, m.find? (keyHit f) = none → inferName1 f = some g →
      infer_speaker f m = g) ∧
    (∀ f m g, m.find? (keyHit f) = none → inferName1 f = none → inferName2 f = some g →
      infer_speaker f m = g) ∧
    (∀ f m, m.find? (keyHit f) = none → inferName1 f = none → inferName2 f = none →
      infer_speaker f m = "Unbekannt") := by
  refine ⟨?_, ?_, ?_, ?_⟩
  · intro f m kv hf
    simp [infer_speaker, inferLoop_eq_find, hf]
  · intro f m g hf h1
    simp [infer_speaker, inferLoop_eq_find, hf, h1]
  · intro f m g hf h1 h2
    simp [infer_speaker, inferLoop_eq_find, hf, h1, h2]
  · intro f m hf h1 h2
    simp [infer_speaker, inferLoop_eq_find, hf, h1, h2]

/-- Witness for C9: the mapping entry wins over the filename patterns,
case-insensitively (spec scenario 6). -/
theorem claim_C9_witness :
    [("max", "Maximilian")].find? (keyHit "2024-06-28_MAX.txt")
      = some ("max", "Maximilian") ∧
    infer_speaker "2024-06-28_MAX.txt" [("max", "Maximilian")] = "Maximilian" :=
  ⟨by decide,
    claim_C9.1 "2024-06-28_MAX.txt" [("max", "Maximilian")] ("max", "Maximilian")
      (by decide)⟩

/-! ### C10 — empty transcript directory -/

/-- Claim C10, counterexample: with an empty transcript directory the
output is NOT byte-for-byte the input chat file — `splitlines` followed
by `"\n".join` drops a trailing newline. -/
theorem claim_C10_counterexample :
    merge_transcripts "Hallo\n" [] [] = Except.ok "Hallo" ∧ "Hallo" ≠ "Hallo\n" := by
  constructor
  · decide
  · decide

/-- Helper: with no transcripts at the cursor the walk copies every
chat line verbatim, provided no chat line makes the time parse raise. -/
theorem walk_nil_ts (m : List (String × String)) :
    ∀ lines, (∀ line ∈ lines, parse_chat_line_time line ≠ Except.error ()) →
      walk m lines [] = Except.ok (lines.map MergeEvent.chat, []) := by
  intro lines
  induction lines with
  | nil => intro _; rfl
  | cons line more ih =>
    intro hok
    have ih2 := ih (fun l hl => hok l (List.mem_cons_of_mem line hl))
    cases hp : parse_chat_line_time line with
    | error e =>
      cases e
      exact absurd hp (hok line (List.mem_cons_self line more))
    | ok otod =>
      cases otod with
      | none => simp [walk, hp, ih2]
      | some tod => simp [walk, hp, ih2, consume]

/-- Helper: rendering a pure chat-event list returns the lines. -/
theorem render_chat_flatten (lines : List String) :
    ((lines.map MergeEvent.chat).map renderEvent).flatten = lines := by
  induction lines with
  | nil => rfl
  | cons l more ih =>
    simp only [List.map_cons, List.flatten_cons, ih]
    rfl

/-- Claim C10 (amended): with an empty transcript directory (and no
chat line raising in the time parse) the output is the input's lines
re-joined with single newlines — equal to the input exactly when the
input is newline-separated without a trailing terminator. -/
theorem claim_C10 (c : String) (m : List (String × String))
    (hok : ∀ line ∈ splitlinesPy c, parse_chat_line_time line ≠ Except.error ()) :
    merge_transcripts c [] m = Except.ok (String.intercalate "\n" (splitlinesPy c)) := by
  have hprep : prepare [] = [] := rfl
  have hw := walk_nil_ts m (splitlinesPy c) hok
  simp only [merge_transcripts, merge_transcripts_events, hprep, hw, tailBlocks,
    List.append_nil, render_chat_flatten]

/-- Witness for C10 at a concrete input without trailing newline: the
merge is the identity. -/
theorem claim_C10_witness :
    (∀ line ∈ splitlinesPy "Hallo\nWelt", parse_chat_line_time line ≠ Except.error ()) ∧
    merge_transcripts "Hallo\nWelt" [] []
      = Except.ok (String.intercalate "\n" (splitlinesPy "Hallo\nWelt")) :=
  ⟨by decide, claim_C10 "Hallo\nWelt" [] (by decide)⟩

end MergeSpec
